import Mathlib

/-!
Verification of `xml_to_csv.py`: an XML-to-CSV converter.

The program has two parts:
* `xml_to_csv` (lines 14-73): parses one XML file, collects every `<Sample>`
  element via `root.findall('.//Sample')`, derives the column ordering from
  the samples' direct-child tag names, and writes a CSV (header plus one row
  per sample) with `csv.DictWriter` (whose `restval` default is `""`).
* `main` (lines 76-108): creates `<script_dir>/xml/csv` with
  `mkdir(parents=True, exist_ok=True)`, checks `xml_dir.exists()`, globs
  `*.xml`, and converts each file to `<stem>.csv` inside the csv directory.

The embedding below models the XML element tree, the traversal performed by
`ElementTree.findall('.//Sample')` (which searches strictly beneath the node
it is called on), the field-name collection, the per-row dictionary with
overwrite semantics, the per-file exception handling, the driver's directory
logic, and the `pathlib` filename derivation (`Path.stem`, `glob('*.xml')`).
-/

set_option autoImplicit false

namespace XmlToCsv

/-- An XML element as exposed by `xml.etree.ElementTree`: a tag name, an
optional text node (`.text` is `None` when the element has no text), and the
list of direct children in document order.  Attributes and tail text are
ignored by the program, so they are not modelled. -/
structure Element where
  tag : String
  text : Option String
  children : List Element

mutual

/-- Document-order (preorder) traversal of an element: the element itself,
followed by the preorder listing of its children.  This is the order in which
`ElementTree` iterates a tree. -/
def preorder : Element → List Element
  | Element.mk t x cs => Element.mk t x cs :: preorderList cs

/-- Preorder traversal of a forest, left to right. -/
def preorderList : List Element → List Element
  | [] => []
  | e :: es => preorder e ++ preorderList es

end

/-- `root.findall('.//' ++ tag)` (line 28): all elements with the given tag
strictly beneath `root`, at any depth, in document order.  `ElementTree`'s
`.//tag` path iterates `e.iter(tag)` for each child context and skips the
context node itself, so the root element is never part of the result. -/
def findall (root : Element) (tag : String) : List Element :=
  (preorderList root.children).filter (fun e => e.tag == tag)

/-- One step of the field-name collection (lines 42-44 and 49-51): append the
tag to the ordered list unless it was already recorded.  The Python code keeps
a `field_names` list and a `seen_fields` set updated together; membership in
the list coincides with membership in the set. -/
def insertNew (fs : List String) (t : String) : List String :=
  if t ∈ fs then fs else fs ++ [t]

/-- The inner loop `for child in sample: if child.tag not in seen_fields: ...`
run over the direct children of one sample, starting from the fields
collected so far. -/
def collectFields (fs : List String) (cs : List Element) : List String :=
  cs.foldl (fun a c => insertNew a c.tag) fs

/-- Lines 36-51: the column ordering.  The first sample's direct children are
scanned first, then the remaining samples' children, each tag being recorded
once in encounter order. -/
def fieldNames : List Element → List String
  | [] => []
  | first :: rest =>
      rest.foldl (fun fs s => collectFields fs s.children)
        (collectFields [] first.children)

/-- `child.text if child.text is not None else ''` (line 63). -/
def childText (c : Element) : String := c.text.getD ""

/-- Lines 60-63: the row dictionary, built by iterating the sample's direct
children and assigning `row[child.tag] = childText child`.  A Python dict is
modelled as its lookup function; assignment overwrites the previous binding
for the same key. -/
def buildRow (s : Element) : String → Option String :=
  s.children.foldl
    (fun r c => fun k => if k = c.tag then some (childText c) else r k)
    (fun _ => none)

/-- The cell `csv.DictWriter` emits for column `k` of sample `s`:
`row.get(k, restval)` with the writer's default `restval = ""`. -/
def csvCell (s : Element) (k : String) : String := (buildRow s k).getD ""

/-- The record `DictWriter.writerow` emits for one sample: one cell per
declared field name, in field order. -/
def csvRow (fields : List String) (s : Element) : List String :=
  fields.map (csvCell s)

/-- Lines 54-64: the CSV file contents as a list of records.  `writeheader`
writes the field names first, then each sample is appended as one row, in
document order. -/
def writeCsv (fields : List String) (samples : List Element) :
    List (List String) :=
  samples.foldl (fun lines s => lines ++ [csvRow fields s]) [fields]

/-- Result of one conversion: either no `<Sample>` elements were found (a
warning is printed and no file is written, lines 30-32), or the CSV records
that get written. -/
inductive ConvertResult where
  | noSamples : ConvertResult
  | written : List (List String) → ConvertResult

/-- The body of `xml_to_csv` after a successful parse (lines 25-64). -/
def xml_to_csv (root : Element) : ConvertResult :=
  let samples := findall root "Sample"
  if samples.isEmpty then ConvertResult.noSamples
  else ConvertResult.written (writeCsv (fieldNames samples) samples)

/-- The ways processing one input file can go before the `try` block
completes: the parse raises `ET.ParseError` (line 70), some other exception
is raised during processing (line 72, e.g. an unwritable destination), or the
file parses into an element tree. -/
inductive FileCase where
  | malformed : FileCase
  | raisesOther : FileCase
  | wellFormed : Element → FileCase

/-- The two exception classes the `except` clauses distinguish. -/
inductive PyErr where
  | parseError : PyErr
  | otherError : PyErr

/-- The `try` body of `xml_to_csv` (lines 22-68): parsing either raises or
yields a tree, and the pure conversion then runs on the tree. -/
def parseOrConvert : FileCase → Except PyErr ConvertResult
  | FileCase.malformed => Except.error PyErr.parseError
  | FileCase.raisesOther => Except.error PyErr.otherError
  | FileCase.wellFormed root => Except.ok (xml_to_csv root)

/-- The observable outcome of `xml_to_csv` for one file, after the
`except` handlers (lines 70-73) have run: every exception is converted into
a printed report and a normal return. -/
inductive FileOutcome where
  | parseErrorReported : FileOutcome
  | errorReported : FileOutcome
  | warnedNoSamples : FileOutcome
  | wrote : List (List String) → FileOutcome

/-- `xml_to_csv` as the driver sees it (lines 22-73): the `try`/`except`
wrapper around `parseOrConvert`.  No exception escapes. -/
def processFile (f : FileCase) : FileOutcome :=
  match parseOrConvert f with
  | Except.error PyErr.parseError => FileOutcome.parseErrorReported
  | Except.error PyErr.otherError => FileOutcome.errorReported
  | Except.ok ConvertResult.noSamples => FileOutcome.warnedNoSamples
  | Except.ok (ConvertResult.written lines) => FileOutcome.wrote lines

/-- The driver's per-file loop (lines 101-108): each file is processed
independently. -/
def runBatch (files : List FileCase) : List FileOutcome :=
  files.map processFile

/-- The filesystem facts `main` interacts with: whether `<script>/xml` and
`<script>/xml/csv` exist, and the names of the `*.xml` files the glob at
line 92 returns (empty when the directory did not exist before the run,
since `mkdir` creates it fresh). -/
structure DriverState where
  xmlDirExists : Bool
  csvDirExists : Bool
  xmlFiles : List String
deriving DecidableEq

/-- Console-visible events of one `main` run. -/
inductive MainEvent where
  | errorMissingXmlDir : MainEvent
  | reportNoXmlFiles : MainEvent
  | processed : String → MainEvent
deriving DecidableEq

/-- Line 84: `csv_dir.mkdir(parents=True, exist_ok=True)`.  Creating
`xml/csv` with `parents=True` creates the missing parent `xml` as well; with
`exist_ok=True` the call is idempotent. -/
def mkdirParents (s : DriverState) : DriverState :=
  { s with xmlDirExists := true, csvDirExists := true }

/-- Lines 79-108 of `main`, assuming `mkdir` itself succeeds: create the
output directory, test `xml_dir.exists()`, glob `*.xml`, and process each
match.  Returns the final filesystem state and the run's events. -/
def main (s : DriverState) : DriverState × List MainEvent :=
  let s1 := mkdirParents s
  if s1.xmlDirExists = false then (s1, [MainEvent.errorMissingXmlDir])
  else if s1.xmlFiles.isEmpty then (s1, [MainEvent.reportNoXmlFiles])
  else (s1, s1.xmlFiles.map MainEvent.processed)

/-- The characters of the literal `".xml"`. -/
def xmlExt : List Char := ['.', 'x', 'm', 'l']

/-- The characters of the literal `".csv"`. -/
def csvExt : List Char := ['.', 'c', 's', 'v']

/-- `pathlib.Path.glob('*.xml')` name matching (line 92): `fnmatch`
translation of `*.xml` full-matches a name exactly when the name ends in
`.xml`.  Unlike the `glob` module, `Path.glob` does not skip names that
begin with a dot, so the name `.xml` itself matches. -/
def matchesXmlGlob (name : List Char) : Bool :=
  decide (xmlExt <:+ name)

/-- The index of the last `'.'` in a name, if any — `name.rfind('.')`
restricted to a found result. -/
def rfindDot : List Char → Option Nat
  | [] => none
  | c :: cs =>
    match rfindDot cs with
    | some i => some (i + 1)
    | none => if c = '.' then some 0 else none

/-- `pathlib.PurePath.stem`: the final component without its suffix.  The
suffix is `name[i:]` for `i = name.rfind('.')` only when `0 < i <
len(name) - 1`; otherwise the stem is the whole name.  In particular the
stem of the dotfile `.xml` is `.xml` itself. -/
def stem (name : List Char) : List Char :=
  match rfindDot name with
  | some i => if 0 < i ∧ i < name.length - 1 then name.take i else name
  | none => name

/-- Line 103: `csv_filename = xml_file.stem + '.csv'`. -/
def csvName (name : List Char) : List Char := stem name ++ csvExt

/-- The last direct child of the list with the given tag, if any: the child
whose text survives the overwriting assignments of lines 61-63. -/
def lastMatch (k : String) : List Element → Option Element
  | [] => none
  | c :: cs =>
    match lastMatch k cs with
    | some c' => some c'
    | none => if c.tag == k then some c else none

/-- Modelled from the spec's words for the column ordering: keep each tag
name once, first occurrence winning.  Written as an independent recursion so
that it can be compared with the accumulator-based collection of the
source. -/
def dedupKeepFirst : List String → List String
  | [] => []
  | t :: ts => t :: (dedupKeepFirst ts).filter (fun x => decide (x ≠ t))

/-- The direct-child tag names of a list of samples, concatenated in
encounter order. -/
def allTags : List Element → List String
  | [] => []
  | s :: ss => s.children.map (fun c => c.tag) ++ allTags ss

/-- Modelled from the spec's words: append to `cols` each tag of the list
that is not already recorded, in encounter order. -/
def appendNew : List String → List String → List String
  | cols, [] => cols
  | cols, t :: ts =>
    if t ∈ cols then appendNew cols ts else appendNew (cols ++ [t]) ts

/-- The column ordering exactly as the claim states it: the first sample's
direct-child tag names in encounter order with duplicates dropped (first
occurrence wins), followed by each not-yet-recorded tag name of the
remaining samples' direct children, in encounter order. -/
def specColumns : List Element → List String
  | [] => []
  | first :: rest =>
      rest.foldl (fun cols s => appendNew cols (s.children.map (fun c => c.tag)))
        (dedupKeepFirst (first.children.map (fun c => c.tag)))

/-- A sample with two children of the same tag `X`, texts `"a"` then
`"b"`. -/
def dupSample : Element :=
  Element.mk "Sample" none
    [Element.mk "X" (some "a") [], Element.mk "X" (some "b") []]

/-- A document whose root element is itself named `Sample` and has no
descendants. -/
def soleSampleRoot : Element := Element.mk "Sample" (some "v") []

/-- The filename `.xml` — a dotfile that `Path.glob('*.xml')` matches. -/
def hiddenXmlName : List Char := ['.', 'x', 'm', 'l']

/-- The filename `.xml.xml`. -/
def doubleXmlName : List Char := ['.', 'x', 'm', 'l', '.', 'x', 'm', 'l']

/-- The filename `a.xml`. -/
def aXmlName : List Char := ['a', '.', 'x', 'm', 'l']

/-- The filename `b.xml`. -/
def bXmlName : List Char := ['b', '.', 'x', 'm', 'l']

/-- The filesystem state of a run started without an `xml` directory. -/
def noXmlDirState : DriverState := DriverState.mk false false []

/-- The `<Sample>` holding Alice from the spec's example scenario. -/
def sampleAlice : Element :=
  Element.mk "Sample" none
    [Element.mk "Name" (some "Alice") [], Element.mk "Age" (some "30") []]

/-- The `<Sample>` holding Bob from the spec's example scenario. -/
def sampleBob : Element :=
  Element.mk "Sample" none
    [Element.mk "Name" (some "Bob") [], Element.mk "City" (some "NYC") []]

/-- The spec's example document
`<Root><Sample>…Alice…</Sample><Sample>…Bob…</Sample></Root>`. -/
def exampleDoc : Element := Element.mk "Root" none [sampleAlice, sampleBob]

/-! ### Helper lemmas about the CSV writer -/

theorem foldl_writeRow_eq (fields : List String) :
    ∀ (samples : List Element) (acc : List (List String)),
      samples.foldl (fun lines s => lines ++ [csvRow fields s]) acc
        = acc ++ samples.map (csvRow fields) := by
  intro samples
  induction samples with
  | nil => intro acc; simp
  | cons s ss ih => intro acc; simp [ih]

theorem writeCsv_eq (fields : List String) (samples : List Element) :
    writeCsv fields samples = fields :: samples.map (csvRow fields) := by
  unfold writeCsv
  rw [foldl_writeRow_eq]
  rfl

/-! ### Helper lemmas about row construction -/

theorem foldl_row_apply (k : String) :
    ∀ (cs : List Element) (r : String → Option String),
      (cs.foldl
          (fun r c => fun k' => if k' = c.tag then some (childText c) else r k')
          r) k
        = match lastMatch k cs with
          | some c => some (childText c)
          | none => r k := by
  intro cs
  induction cs with
  | nil => intro r; rfl
  | cons c cs ih =>
    intro r
    rw [List.foldl_cons, ih]
    cases h : lastMatch k cs with
    | some c' => simp [lastMatch, h]
    | none =>
      by_cases hk : k = c.tag
      · subst hk
        simp [lastMatch, h]
      · have hb : (c.tag == k) = false := by
          simp [beq_iff_eq]
          exact fun he => hk he.symm
        simp [lastMatch, h, hk, hb]

theorem buildRow_eq_lastMatch (s : Element) (k : String) :
    buildRow s k = (lastMatch k s.children).map childText := by
  unfold buildRow
  rw [foldl_row_apply]
  cases lastMatch k s.children <;> rfl

theorem lastMatch_eq_getLast_filter (k : String) :
    ∀ cs : List Element,
      lastMatch k cs = (cs.filter (fun e => e.tag == k)).getLast? := by
  intro cs
  induction cs with
  | nil => rfl
  | cons c cs ih =>
    cases hb : (c.tag == k) with
    | false =>
      rw [List.filter_cons_of_neg (by simp [hb])]
      rw [← ih]
      cases h : lastMatch k cs <;> simp [lastMatch, h, hb]
    | true =>
      rw [List.filter_cons_of_pos (by simp [hb])]
      cases hf : cs.filter (fun e => e.tag == k) with
      | nil =>
        have hnone : lastMatch k cs = none := by rw [ih, hf]; rfl
        simp [lastMatch, hnone, hb]
      | cons d ds =>
        have hsome : lastMatch k cs = (d :: ds).getLast? := by rw [ih, hf]
        rw [List.getLast?_cons_cons]
        cases hg : (d :: ds).getLast? with
        | none => exact absurd (List.getLast?_eq_none_iff.mp hg) (by simp)
        | some y => simp [lastMatch, hsome, hg]

theorem csvCell_eq (s : Element) (k : String) :
    csvCell s k
      = (((s.children.filter (fun e => e.tag == k)).getLast?).map
          childText).getD "" := by
  unfold csvCell
  rw [buildRow_eq_lastMatch, lastMatch_eq_getLast_filter]

/-! ### Helper lemmas about the column ordering -/

theorem dedupKeepFirst_filter (p : String → Bool) :
    ∀ l : List String,
      dedupKeepFirst (l.filter p) = (dedupKeepFirst l).filter p := by
  intro l
  induction l with
  | nil => rfl
  | cons a l ih =>
    cases hp : p a with
    | false =>
      rw [List.filter_cons_of_neg (by simp [hp])]
      rw [ih]
      show _ = List.filter p (a :: (dedupKeepFirst l).filter (fun x => decide (x ≠ a)))
      rw [List.filter_cons_of_neg (by simp [hp]), List.filter_filter]
      refine (List.filter_congr ?_).symm
      intro x _
      by_cases hx : x = a
      · subst hx; simp [hp]
      · simp [hx]
    | true =>
      show _ = List.filter p (a :: (dedupKeepFirst l).filter (fun x => decide (x ≠ a)))
      rw [List.filter_cons_of_pos (by simp [hp]),
        List.filter_cons_of_pos (by simp [hp])]
      show a :: (dedupKeepFirst (l.filter p)).filter (fun x => decide (x ≠ a)) = _
      rw [ih, List.filter_filter, List.filter_filter]
      refine congrArg (a :: ·) (List.filter_congr ?_)
      intro x _
      exact Bool.and_comm _ _

theorem foldl_insertNew_eq :
    ∀ (l acc : List String),
      l.foldl insertNew acc
        = acc ++ dedupKeepFirst (l.filter (fun t => decide (t ∉ acc))) := by
  intro l
  induction l with
  | nil => intro acc; simp [dedupKeepFirst]
  | cons t ts ih =>
    intro acc
    by_cases h : t ∈ acc
    · rw [List.foldl_cons, show insertNew acc t = acc from if_pos h,
        List.filter_cons_of_neg (by simp [h])]
      exact ih acc
    · rw [List.foldl_cons, show insertNew acc t = acc ++ [t] from if_neg h,
        ih (acc ++ [t]),
        List.filter_cons_of_pos (by simp [h])]
      show _ = acc ++ (t :: (dedupKeepFirst (ts.filter (fun x => decide (x ∉ acc)))).filter
        (fun x => decide (x ≠ t)))
      rw [List.append_assoc]
      refine congrArg (acc ++ ·) ?_
      show [t] ++ _ = t :: _
      refine congrArg (t :: ·) ?_
      rw [← dedupKeepFirst_filter, List.filter_filter]
      refine congrArg dedupKeepFirst (List.filter_congr ?_)
      intro x _
      by_cases hx : x = t
      · subst hx; simp [List.mem_append]
      · by_cases hxa : x ∈ acc <;> simp [List.mem_append, hx, hxa]

theorem foldl_insertNew_nil (l : List String) :
    l.foldl insertNew [] = dedupKeepFirst l := by
  rw [foldl_insertNew_eq]
  simp only [List.nil_append]
  refine congrArg dedupKeepFirst ?_
  refine List.filter_eq_self.mpr ?_
  intro a _
  simp

theorem collectFields_eq (fs : List String) (cs : List Element) :
    collectFields fs cs = (cs.map (fun c => c.tag)).foldl insertNew fs := by
  unfold collectFields
  rw [List.foldl_map]

theorem foldl_collectFields_eq :
    ∀ (rest : List Element) (fs : List String),
      rest.foldl (fun a s => collectFields a s.children) fs
        = (allTags rest).foldl insertNew fs := by
  intro rest
  induction rest with
  | nil => intro fs; rfl
  | cons s ss ih =>
    intro fs
    rw [List.foldl_cons, ih, collectFields_eq]
    show _ = (s.children.map (fun c => c.tag) ++ allTags ss).foldl insertNew fs
    rw [List.foldl_append]

theorem fieldNames_eq_dedup :
    ∀ samples : List Element,
      fieldNames samples = dedupKeepFirst (allTags samples) := by
  intro samples
  cases samples with
  | nil => rfl
  | cons first rest =>
    show rest.foldl (fun fs s => collectFields fs s.children)
        (collectFields [] first.children)
      = dedupKeepFirst (allTags (first :: rest))
    rw [foldl_collectFields_eq, collectFields_eq]
    show _ = dedupKeepFirst (first.children.map (fun c => c.tag) ++ allTags rest)
    rw [← List.foldl_append, foldl_insertNew_nil]

theorem appendNew_eq :
    ∀ (ts cols : List String), appendNew cols ts = ts.foldl insertNew cols := by
  intro ts
  induction ts with
  | nil => intro cols; rfl
  | cons t ts ih =>
    intro cols
    by_cases h : t ∈ cols <;>
      simp [appendNew, insertNew, h, ih, List.foldl_cons]

theorem fieldNames_eq_specColumns :
    ∀ samples : List Element, fieldNames samples = specColumns samples := by
  intro samples
  cases samples with
  | nil => rfl
  | cons first rest =>
    show rest.foldl (fun fs s => collectFields fs s.children)
        (collectFields [] first.children)
      = rest.foldl
          (fun cols s => appendNew cols (s.children.map (fun c => c.tag)))
          (dedupKeepFirst (first.children.map (fun c => c.tag)))
    rw [collectFields_eq, foldl_insertNew_nil]
    refine congrArg (List.foldl · _ rest) ?_
    funext cols s
    rw [appendNew_eq, collectFields_eq]

/-! ### Helper lemmas about filename derivation -/

theorem rfindDot_append_xmlExt :
    ∀ pre : List Char, rfindDot (pre ++ xmlExt) = some pre.length := by
  intro pre
  induction pre with
  | nil => decide
  | cons c pre ih =>
    show rfindDot (c :: (pre ++ xmlExt)) = some (pre.length + 1)
    rw [rfindDot, ih]

theorem stem_append_xmlExt (pre : List Char) (hp : pre ≠ []) :
    stem (pre ++ xmlExt) = pre := by
  unfold stem
  rw [rfindDot_append_xmlExt]
  have hlen : (pre ++ xmlExt).length = pre.length + 4 := by simp [xmlExt]
  have h0 : 0 < pre.length := List.length_pos.mpr hp
  show (if 0 < pre.length ∧ pre.length < (pre ++ xmlExt).length - 1 then
      List.take pre.length (pre ++ xmlExt) else pre ++ xmlExt) = pre
  rw [if_pos ⟨h0, by rw [hlen]; omega⟩]
  exact List.take_left pre xmlExt

/-! ### The claims -/

/-- C1: for every XML document with at least one `Sample` element, the column
ordering produced by the converter equals the first sample's direct-child tag
names in encounter order with duplicates dropped (first occurrence wins),
followed by each tag name of the remaining samples' direct children, in
encounter order, that was not already recorded — i.e. `specColumns`. -/
theorem c1_column_order (root first : Element) (rest : List Element)
    (h : findall root "Sample" = first :: rest) :
    ∃ dataRows,
      xml_to_csv root
        = ConvertResult.written (specColumns (first :: rest) :: dataRows) := by
  refine ⟨(first :: rest).map (csvRow (fieldNames (first :: rest))), ?_⟩
  unfold xml_to_csv
  rw [h]
  show (if (first :: rest).isEmpty = true then ConvertResult.noSamples
      else ConvertResult.written (writeCsv (fieldNames (first :: rest))
        (first :: rest)))
    = _
  rw [if_neg (by simp)]
  rw [writeCsv_eq, fieldNames_eq_specColumns]

/-- Witness for C1 at the spec's example document. -/
theorem c1_column_order_witness :
    ∃ dataRows,
      xml_to_csv exampleDoc
        = ConvertResult.written (specColumns [sampleAlice, sampleBob] :: dataRows) :=
  c1_column_order exampleDoc sampleAlice [sampleBob] rfl

/-- C2: for every XML document whose collected sample list is nonempty, the
CSV output is exactly one header record (the field names in computed order)
followed by exactly one data record per collected `Sample`, in the document
order of the samples. -/
theorem c2_header_then_one_row_per_sample (root : Element)
    (h : findall root "Sample" ≠ []) :
    xml_to_csv root
        = ConvertResult.written
            (fieldNames (findall root "Sample")
              :: (findall root "Sample").map
                  (csvRow (fieldNames (findall root "Sample")))) ∧
    ((findall root "Sample").map
        (csvRow (fieldNames (findall root "Sample")))).length
      = (findall root "Sample").length := by
  constructor
  · cases hfa : findall root "Sample" with
    | nil => exact absurd hfa h
    | cons f r =>
      unfold xml_to_csv
      rw [hfa]
      show (if (f :: r).isEmpty = true then ConvertResult.noSamples
          else ConvertResult.written (writeCsv (fieldNames (f :: r)) (f :: r)))
        = _
      rw [if_neg (by simp)]
      rw [writeCsv_eq]
  · exact List.length_map _ _

/-- Witness for C2 at the spec's example document, reproducing the spec's
expected CSV records. -/
theorem c2_header_then_one_row_per_sample_witness :
    xml_to_csv exampleDoc
      = ConvertResult.written
          [["Name", "Age", "City"], ["Alice", "30", ""], ["Bob", "", "NYC"]] :=
  ((c2_header_then_one_row_per_sample exampleDoc
    (by rw [show findall exampleDoc "Sample" = [sampleAlice, sampleBob] from rfl]
        exact List.cons_ne_nil _ _)).1).trans rfl

/-- C3: for every sample and column: a sample with no direct child of that
tag yields the empty cell; when the governing (last) child of that tag has
null text the cell is empty; otherwise the cell is that child's text. -/
theorem c3_cell_default_fill (s : Element) (k : String) :
    ((s.children.filter (fun e => e.tag == k)) = [] → csvCell s k = "") ∧
    (∀ c, (s.children.filter (fun e => e.tag == k)).getLast? = some c →
      c.text = none → csvCell s k = "") ∧
    (∀ c t, (s.children.filter (fun e => e.tag == k)).getLast? = some c →
      c.text = some t → csvCell s k = t) := by
  refine ⟨?_, ?_, ?_⟩
  · intro h
    rw [csvCell_eq, h]
    rfl
  · intro c hlast htext
    rw [csvCell_eq, hlast]
    simp [childText, htext]
  · intro c t hlast htext
    rw [csvCell_eq, hlast]
    simp [childText, htext]

/-- Witness for C3: Bob's sample has no `Age` child, so the `Age` cell is
empty; Alice's `Name` cell carries the child's text. -/
theorem c3_cell_default_fill_witness :
    csvCell sampleBob "Age" = "" ∧ csvCell sampleAlice "Name" = "Alice" :=
  ⟨(c3_cell_default_fill sampleBob "Age").1 rfl,
    (c3_cell_default_fill sampleAlice "Name").2.2
      (Element.mk "Name" (some "Alice") []) "Alice" rfl rfl⟩

/-- C4: when a sample has several direct children with the same tag, the
emitted cell is the text of the last such child in document order
(overwrite semantics). -/
theorem c4_last_write_wins (s : Element) (x : String) (c : Element)
    (h : (s.children.filter (fun e => e.tag == x)).getLast? = some c) :
    csvCell s x = c.text.getD "" := by
  rw [csvCell_eq, h]
  rfl

/-- Witness for C4: children with tag `X` and texts `"a"` then `"b"` emit
`"b"`. -/
theorem c4_last_write_wins_witness : csvCell dupSample "X" = "b" :=
  c4_last_write_wins dupSample "X" (Element.mk "X" (some "b") []) rfl

/-- C5 (code behavior at the claim's failing input): starting a run with no
`xml` directory, `main` creates `xml` and `xml/csv` via
`mkdir(parents=True)`, then reports only that no XML files were found; the
missing-directory error branch does not fire.  The claim says an error is
reported — the code's own error branch (lines 87-89) is unreachable because
the `mkdir` at line 84 precedes the existence check. -/
theorem c5_missing_dir_actual_behavior :
    main noXmlDirState
        = (DriverState.mk true true [], [MainEvent.reportNoXmlFiles]) ∧
    MainEvent.errorMissingXmlDir ∉ (main noXmlDirState).2 := by
  refine ⟨rfl, ?_⟩
  decide

/-- C6 counterexample: a document whose root element is itself named
`Sample` contains a `Sample` element in its tree, yet the collected sequence
`findall root "Sample"` is empty — `ElementTree`'s `.//Sample` never
returns the element it is invoked on. -/
theorem c6_root_sample_not_collected :
    soleSampleRoot.tag = "Sample" ∧
    soleSampleRoot ∈ preorder soleSampleRoot ∧
    findall soleSampleRoot "Sample" = [] := by
  refine ⟨rfl, ?_, rfl⟩
  simp [soleSampleRoot, preorder]

/-- C6 amended: the collected sequence contains every `Sample` element
strictly below the root, at any depth, in document order; the root element
itself is excluded even when it is named `Sample`. -/
theorem c6_findall_strict_descendants (root : Element) :
    (preorder root).filter (fun e => e.tag == "Sample")
      = (if root.tag == "Sample" then [root] else [])
          ++ findall root "Sample" := by
  cases root with
  | mk t x cs =>
    rw [preorder]
    unfold findall
    cases h : ((Element.mk t x cs).tag == "Sample") with
    | false =>
      rw [List.filter_cons_of_neg (by simp [h])]
      simp [h]
    | true =>
      rw [List.filter_cons_of_pos (by simp [h])]
      simp [h]

/-- C7: a well-formed document with zero `Sample` elements yields a warning
outcome: no CSV records are written and the conversion returns normally. -/
theorem c7_no_samples_warns (root : Element)
    (h : findall root "Sample" = []) :
    processFile (FileCase.wellFormed root) = FileOutcome.warnedNoSamples := by
  simp [processFile, parseOrConvert, xml_to_csv, h]

/-- Witness for C7 at a document with no `Sample` elements. -/
theorem c7_no_samples_warns_witness :
    processFile (FileCase.wellFormed (Element.mk "Root" none []))
      = FileOutcome.warnedNoSamples :=
  c7_no_samples_warns (Element.mk "Root" none []) rfl

/-- C8: per-file errors are contained by the `try`/`except` wrapper: a
malformed file (or a file raising any other exception) in the middle of a
batch turns into a reported outcome with no written records, every other
file is processed exactly as it would be alone, and the batch yields one
outcome per input file. -/
theorem c8_per_file_error_isolation (pre post : List FileCase) :
    runBatch (pre ++ FileCase.malformed :: post)
        = runBatch pre ++ FileOutcome.parseErrorReported :: runBatch post ∧
    runBatch (pre ++ FileCase.raisesOther :: post)
        = runBatch pre ++ FileOutcome.errorReported :: runBatch post ∧
    ∀ files : List FileCase, (runBatch files).length = files.length := by
  refine ⟨?_, ?_, ?_⟩
  · simp [runBatch, processFile, parseOrConvert]
  · simp [runBatch, processFile, parseOrConvert]
  · intro files
    simp [runBatch]

/-- C9 counterexample: `Path.glob('*.xml')` also matches the dotfile
`.xml`, whose `stem` is `.xml` itself, so its output name is `.xml.csv` —
not the claimed replacement of `.xml` by `.csv` — and it collides with the
output name of the distinct input `.xml.xml`. -/
theorem c9_dotfile_output_collision :
    matchesXmlGlob hiddenXmlName = true ∧
    matchesXmlGlob doubleXmlName = true ∧
    hiddenXmlName ≠ doubleXmlName ∧
    csvName hiddenXmlName = csvName doubleXmlName := by
  decide

/-- C9 amended: for every matched input filename other than the bare
dotfile `.xml` (i.e. of length at least 5), the output filename is the
input with its final `.xml` replaced by `.csv` and the base name kept; on
such filenames the mapping is injective. -/
theorem c9_rename_replaces_ext_injective (n1 n2 : List Char)
    (h1 : matchesXmlGlob n1 = true) (h2 : matchesXmlGlob n2 = true)
    (l1 : 5 ≤ n1.length) (l2 : 5 ≤ n2.length) :
    csvName n1 = n1.take (n1.length - 4) ++ csvExt ∧
    (csvName n1 = csvName n2 → n1 = n2) := by
  unfold matchesXmlGlob at h1 h2
  obtain ⟨p1, hp1⟩ := of_decide_eq_true h1
  obtain ⟨p2, hp2⟩ := of_decide_eq_true h2
  have hl1 : n1.length = p1.length + 4 := by rw [← hp1]; simp [xmlExt]
  have hl2 : n2.length = p2.length + 4 := by rw [← hp2]; simp [xmlExt]
  have hne1 : p1 ≠ [] := by
    intro hnil
    rw [hl1, hnil] at l1
    simp at l1
  have hne2 : p2 ≠ [] := by
    intro hnil
    rw [hl2, hnil] at l2
    simp at l2
  constructor
  · rw [← hp1]
    unfold csvName
    rw [stem_append_xmlExt p1 hne1]
    rw [show (p1 ++ xmlExt).length - 4 = p1.length by simp [xmlExt]]
    rw [List.take_left p1 xmlExt]
  · intro heq
    rw [← hp1, ← hp2] at heq
    unfold csvName at heq
    rw [stem_append_xmlExt p1 hne1, stem_append_xmlExt p2 hne2] at heq
    rw [← hp1, ← hp2, List.append_cancel_right heq]

/-- Witness for C9 amended at the filenames `a.xml` and `b.xml`. -/
theorem c9_rename_replaces_ext_injective_witness :
    csvName aXmlName = aXmlName.take (aXmlName.length - 4) ++ csvExt ∧
    (csvName aXmlName = csvName bXmlName → aXmlName = bXmlName) :=
  c9_rename_replaces_ext_injective aXmlName bXmlName
    (by decide) (by decide) (by decide) (by decide)

/-- C10: `main` creates `xml/csv` (with parents) before testing whether the
`xml` directory exists, so after the creation succeeds both directories
exist, the missing-directory error branch can never fire, and the
directories are created as a side effect of every run — including one that
started with no input directory and no input files. -/
theorem c10_mkdir_makes_error_branch_unreachable (s : DriverState) :
    (main s).1.xmlDirExists = true ∧ (main s).1.csvDirExists = true ∧
    MainEvent.errorMissingXmlDir ∉ (main s).2 := by
  cases hf : s.xmlFiles.isEmpty <;>
    simp [main, mkdirParents, hf]

end XmlToCsv
